import Mathlib

/-!
# Task Roulette — verification of the spin/selection engine

Shallow embedding of `src/src/components/TaskSelector.tsx` (the spin
roulette component: task-list mutation, the spin tick schedule and the
winner reveal), together with a spec-modelled credit award function
(`awardForCompletion`, whose implementation is not among the sources).

The component state we model is the React state that the claims are
about: `tasks`, `newTask`, `isSpinning`, `currentIndex`, `winner`,
`error`.  Presentation-only state (`showManage`, refs for timers) is
omitted.  Randomness (`Math.floor(Math.random() * tasks.length)`) is
modelled as an explicit parameter `rand : Nat`, constrained in theorems
by `rand < tasks.length`.
-/

namespace TaskRoulette

/-- The React state of `TaskSelector` (TaskSelector.tsx lines 23–30)
restricted to the fields the core logic reads or writes. -/
structure SelectorState where
  tasks : List String
  newTask : String
  isSpinning : Bool
  currentIndex : Nat
  winner : Option String
  error : String
deriving DecidableEq, Repr

/-- Embeds `tasks.filter((_, i) => i !== index)` (TaskSelector.tsx line 54):
keep every element whose position differs from `index`.  The index is an
`Int` because a JavaScript caller may pass any integer, including a
negative one. -/
def removeAt (l : List String) (index : Int) : List String :=
  (l.enum.filter (fun p => ((p.1 : Int) != index))).map Prod.snd

/-- Embeds `removeTask` (TaskSelector.tsx lines 53–56): filter the task at
`index` out of the list and clear the winner. -/
def removeTask (s : SelectorState) (index : Int) : SelectorState :=
  { s with tasks := removeAt s.tasks index, winner := none }

/-- Models `String.prototype.trim` of JavaScript: strip leading and
trailing whitespace from the input. -/
def trim (s : String) : String :=
  ⟨((s.data.dropWhile Char.isWhitespace).reverse.dropWhile Char.isWhitespace).reverse⟩

/-- Embeds `addTask` (TaskSelector.tsx lines 37–51): trim the input; an
empty trimmed input or a duplicate of an existing entry only sets the
error message; otherwise the trimmed name is appended, the input and the
error are cleared and the winner is reset. -/
def addTask (s : SelectorState) : SelectorState :=
  let trimmed := trim s.newTask
  if trimmed = "" then
    { s with error := "Please enter a task name." }
  else if s.tasks.contains trimmed then
    { s with error := "That task already exists." }
  else
    { s with tasks := s.tasks ++ [trimmed], newTask := "", error := "",
             winner := none }

/-! ## Lemmas about `removeAt` -/

theorem filterIdx_of_lt (l : List String) :
    ∀ (k : Nat) (index : Int), index < (k : Int) →
      ((List.enumFrom k l).filter (fun p => ((p.1 : Int) != index))).map Prod.snd = l := by
  induction l with
  | nil => intro k index _; rfl
  | cons a tl ih =>
    intro k index h
    have hne : ((k : Int) != index) = true := by
      simp only [bne_iff_ne, ne_eq]
      omega
    rw [List.enumFrom_cons,
      List.filter_cons_of_pos (p := fun q : Nat × String => ((q.1 : Int) != index)) hne,
      List.map_cons]
    rw [ih (k + 1) index (by push_cast; omega)]

theorem filterIdx_of_ge (l : List String) :
    ∀ (k : Nat) (index : Int), (k : Int) + l.length ≤ index →
      ((List.enumFrom k l).filter (fun p => ((p.1 : Int) != index))).map Prod.snd = l := by
  induction l with
  | nil => intro k index _; rfl
  | cons a tl ih =>
    intro k index h
    simp only [List.length_cons] at h
    have hne : ((k : Int) != index) = true := by
      simp only [bne_iff_ne, ne_eq]
      push_cast at h ⊢
      omega
    rw [List.enumFrom_cons,
      List.filter_cons_of_pos (p := fun q : Nat × String => ((q.1 : Int) != index)) hne,
      List.map_cons]
    rw [ih (k + 1) index (by push_cast at h ⊢; omega)]

theorem filterIdx_of_eq (l : List String) :
    ∀ (k j : Nat), j < l.length →
      ((List.enumFrom k l).filter (fun p => ((p.1 : Int) != ((k + j : Nat) : Int)))).map Prod.snd
        = l.take j ++ l.drop (j + 1) := by
  induction l with
  | nil => intro k j h; simp at h
  | cons a tl ih =>
    intro k j hj
    cases j with
    | zero =>
      have hk : ¬(((k : Int) != ((k + 0 : Nat) : Int)) = true) := by
        simp [bne_iff_ne]
      rw [List.enumFrom_cons,
        List.filter_cons_of_neg
          (p := fun q : Nat × String => ((q.1 : Int) != ((k + 0 : Nat) : Int))) hk]
      rw [show ((k + 0 : Nat) : Int) = (k : Int) from by push_cast; ring]
      rw [filterIdx_of_lt tl (k + 1) (k : Int) (by push_cast; omega)]
      simp
    | succ j =>
      have hk : ((k : Int) != ((k + (j + 1) : Nat) : Int)) = true := by
        simp only [bne_iff_ne, ne_eq]
        push_cast
        omega
      rw [List.enumFrom_cons,
        List.filter_cons_of_pos
          (p := fun q : Nat × String => ((q.1 : Int) != ((k + (j + 1) : Nat) : Int))) hk,
        List.map_cons]
      rw [show ((k + (j + 1) : Nat) : Int) = (((k + 1) + j : Nat) : Int) from by
        push_cast; ring]
      rw [ih (k + 1) j (by simpa using Nat.lt_of_succ_lt_succ hj)]
      simp [List.take_cons, List.drop]

/-- Out-of-range removal keeps the list intact. -/
theorem removeAt_out_of_range (l : List String) (index : Int)
    (h : index < 0 ∨ (l.length : Int) ≤ index) : removeAt l index = l := by
  unfold removeAt
  rw [List.enum]
  rcases h with h | h
  · exact filterIdx_of_lt l 0 index (by omega)
  · exact filterIdx_of_ge l 0 index (by push_cast at h ⊢; omega)

/-- In-range removal deletes exactly the element at position `j`. -/
theorem removeAt_in_range (l : List String) (j : Nat) (hj : j < l.length) :
    removeAt l (j : Int) = l.take j ++ l.drop (j + 1) := by
  unfold removeAt
  rw [List.enum]
  have := filterIdx_of_eq l 0 j hj
  rw [show ((j : Nat) : Int) = (((0 + j : Nat)) : Int) from by push_cast; ring]
  exact this

/-- Deleting one position yields a sublist of the original list. -/
theorem take_append_drop_succ_sublist (l : List String) (j : Nat) :
    (l.take j ++ l.drop (j + 1)).Sublist l := by
  conv_rhs => rw [← List.take_append_drop j l]
  apply List.Sublist.append_left
  rw [← List.drop_drop]
  simpa using List.tail_sublist (l.drop j)

/-! ## The spin tick schedule

`spin` (TaskSelector.tsx lines 58–96) runs a `setTimeout` loop `tick`:
each tick advances the centered index by one (mod the task count), adds
the current inter-tick delay `speed` to `elapsed`, then slows down
(`speed + 30` capped at 400 once `elapsed` passes 60% of the 3500 ms
total duration, `speed + 10` capped at 200 once it passes 30%).  The
loop reschedules itself while `elapsed < 3500`; otherwise it lands:
a random final index is drawn, the center is snapped to it, the winner
is set and `isSpinning` is cleared.

The float products `3500 * 0.6` and `3500 * 0.3` evaluate exactly to
`2100` and `1050` in IEEE double arithmetic, and `elapsed`/`speed` are
always integers, so the thresholds are embedded as the naturals `2100`
and `1050`. -/

/-- The local variables of the `tick` closure (TaskSelector.tsx
lines 67–70): inter-tick delay, elapsed time and centered index. -/
structure TickState where
  speed : Nat
  elapsed : Nat
  idx : Nat
deriving DecidableEq, Repr

/-- Initial values set by `spin` before the first tick:
`speed = 60`, `elapsed = 0`, `idx = 0`. -/
def initTick : TickState := ⟨60, 0, 0⟩

/-- The slow-down rule of `tick` (TaskSelector.tsx lines 77–82): once the
new elapsed time passes 60% of the duration the delay grows by 30 ms
(capped at 400), past 30% it grows by 10 ms (capped at 200). -/
def nextSpeed (speed elapsed : Nat) : Nat :=
  if 2100 < elapsed then min (speed + 30) 400
  else if 1050 < elapsed then min (speed + 10) 200
  else speed

/-- One execution of the body of `tick` (TaskSelector.tsx lines 72–82)
up to the continue/land decision: advance `idx` modulo the task count
`n`, accumulate `elapsed`, then update `speed` from the new `elapsed`. -/
def tickStep (n : Nat) (t : TickState) : TickState :=
  let idx := (t.idx + 1) % n
  let elapsed := t.elapsed + t.speed
  ⟨nextSpeed t.speed elapsed, elapsed, idx⟩

theorem tickStep_eq (n : Nat) (t : TickState) :
    tickStep n t = ⟨nextSpeed t.speed (t.elapsed + t.speed),
      t.elapsed + t.speed, (t.idx + 1) % n⟩ := rfl

/-- The `setTimeout`-driven tick loop (TaskSelector.tsx lines 84–85 and
95): run `tickStep` and, while `elapsed < 3500`, reschedule; return the
list of centered indices set by the successive ticks together with the
final tick state.  `fuel` bounds the recursion; any fuel ≥ 34 lets the
loop reach its landing branch (each tick adds at least 60 ms). -/
def spinLoop (n : Nat) : Nat → TickState → List Nat × TickState
  | 0, t => ([], t)
  | fuel + 1, t =>
    let s := tickStep n t
    if s.elapsed < 3500 then
      let r := spinLoop n fuel s
      (s.idx :: r.1, r.2)
    else
      ([s.idx], s)

/-- The centered indices traversed by the ticks of one spin over a task
list of length `n`. -/
def spinTrace (n : Nat) : List Nat := (spinLoop n 100 initTick).1

/-- Embeds `spin` (TaskSelector.tsx lines 58–96) as a state transformer.
With fewer than two tasks only the error message is set.  Otherwise the
tick loop (see `spinLoop`) runs to completion; its landing branch draws
`finalIndex = Math.floor(Math.random() * tasks.length)` — modelled by
the parameter `rand` — snaps the center to it, sets the winner to
`tasks[finalIndex]` and clears `isSpinning`.  The loop's intermediate
`currentIndex` writes are overwritten by the landing snap, so the final
state is as below; the intermediate states are exposed by `spinStates`. -/
def spin (s : SelectorState) (rand : Nat) : SelectorState :=
  if s.tasks.length < 2 then
    { s with error := "Add at least 2 tasks to spin!" }
  else
    { s with error := "", isSpinning := false, currentIndex := rand,
             winner := s.tasks.get? rand }

/-- The sequence of component states produced by one call to `spin`:
the state right after the synchronous prologue (error cleared, winner
reset, `isSpinning` set), one state per tick of the schedule (center
advanced), and the landing state (center snapped to the drawn index,
winner revealed, `isSpinning` cleared). -/
def spinStates (s : SelectorState) (rand : Nat) : List SelectorState :=
  if s.tasks.length < 2 then
    [{ s with error := "Add at least 2 tasks to spin!" }]
  else
    let s0 : SelectorState :=
      { s with error := "", winner := none, isSpinning := true }
    let land : SelectorState :=
      { s0 with currentIndex := rand, winner := s.tasks.get? rand,
                isSpinning := false }
    (s0 :: (spinTrace s.tasks.length).map (fun i => { s0 with currentIndex := i }))
      ++ [land]

/-! ## Lemmas about the tick schedule

The delay/elapsed evolution of the schedule does not depend on the task
count `n` (that only shapes `idx`), so the number of ticks and the final
elapsed time are the same for every task list; they are computed once on
a concrete instance. -/

theorem spinLoop_sched_indep :
    ∀ (fuel n m i j speed elapsed : Nat),
      (spinLoop n fuel ⟨speed, elapsed, i⟩).1.length
          = (spinLoop m fuel ⟨speed, elapsed, j⟩).1.length
      ∧ (spinLoop n fuel ⟨speed, elapsed, i⟩).2.elapsed
          = (spinLoop m fuel ⟨speed, elapsed, j⟩).2.elapsed := by
  intro fuel
  induction fuel with
  | zero => intro n m i j speed elapsed; exact ⟨rfl, rfl⟩
  | succ fuel ih =>
    intro n m i j speed elapsed
    simp only [spinLoop, tickStep_eq]
    by_cases h : elapsed + speed < 3500
    · simp only [h, if_pos, List.length_cons]
      have := ih n m ((i + 1) % n) ((j + 1) % m)
        (nextSpeed speed (elapsed + speed)) (elapsed + speed)
      exact ⟨by rw [this.1], this.2⟩
    · simp only [h, if_neg, List.length_cons]
      exact ⟨rfl, rfl⟩

theorem spinLoop_succ (n fuel : Nat) (t : TickState) :
    spinLoop n (fuel + 1) t =
      if (tickStep n t).elapsed < 3500 then
        ((tickStep n t).idx :: (spinLoop n fuel (tickStep n t)).1,
          (spinLoop n fuel (tickStep n t)).2)
      else ([(tickStep n t).idx], tickStep n t) := rfl

theorem spinLoop_trace_shape :
    ∀ (fuel n : Nat) (t : TickState),
      (spinLoop n fuel t).1
        = (List.range (spinLoop n fuel t).1.length).map
            (fun k => (t.idx + k + 1) % n) := by
  intro fuel
  induction fuel with
  | zero => intro n t; rfl
  | succ fuel ih =>
    intro n t
    rw [spinLoop_succ]
    by_cases h : (tickStep n t).elapsed < 3500
    · rw [if_pos h]
      show (tickStep n t).idx :: (spinLoop n fuel (tickStep n t)).1
        = (List.range ((tickStep n t).idx :: (spinLoop n fuel (tickStep n t)).1).length).map
            (fun k => (t.idx + k + 1) % n)
      rw [List.length_cons, List.range_succ_eq_map, List.map_cons, List.map_map]
      have hidx : (tickStep n t).idx = (t.idx + 1) % n := by rw [tickStep_eq]
      congr 1
      conv_lhs => rw [ih n (tickStep n t)]
      apply List.map_congr_left
      intro k _
      simp only [Function.comp_apply, hidx]
      rw [Nat.add_assoc, Nat.mod_add_mod]
      congr 1
      omega
    · rw [if_neg h]
      rfl

/-- The schedule performs exactly 34 ticks for every task count: 18 ticks
at 60 ms, then the decelerating tail, reaching 3820 ms ≥ 3500 ms. -/
theorem spinTrace_length (n : Nat) : (spinTrace n).length = 34 := by
  unfold spinTrace initTick
  rw [(spinLoop_sched_indep 100 n 2 0 0 60 0).1]
  decide

/-- Closed form of the tick trace: the k-th tick centers index
`(k + 1) % n`. -/
theorem spinTrace_eq (n : Nat) :
    spinTrace n = (List.range 34).map (fun k => (k + 1) % n) := by
  unfold spinTrace
  rw [spinLoop_trace_shape 100 n initTick]
  rw [show (spinLoop n 100 initTick).1.length = 34 from spinTrace_length n]
  apply List.map_congr_left
  intro k _
  simp [initTick]

/-- The tick loop reaches its landing branch within the 100-step fuel
bound: the accumulated elapsed time passes the 3500 ms total duration. -/
theorem spinLoop_reaches_duration (n : Nat) :
    3500 ≤ (spinLoop n 100 initTick).2.elapsed := by
  unfold initTick
  rw [(spinLoop_sched_indep 100 n 2 0 0 60 0).2]
  decide

/-- The center positions traversed by one spin over `tasks`: the indices
set by the ticks of the schedule, then the landing snap to the drawn
final index (`rand`). -/
def spinCenters (tasks : List String) (rand : Nat) : List Nat :=
  spinTrace tasks.length ++ [rand]

/-- Embeds the Spin button (TaskSelector.tsx lines 189–195): `onClick`
runs `spin`, and the button is `disabled` while `isSpinning` or with
fewer than 2 tasks; a disabled button never fires its click handler. -/
def spinButtonClick (s : SelectorState) (rand : Nat) : SelectorState :=
  if s.isSpinning || decide (s.tasks.length < 2) then s else spin s rand

/-- Modelled from the spec: the Credit Ledger (spec §4.2), including
`awardForCompletion`, is not among the source files under src — only the
memory-bank history mentions the credit system.  Per the spec, a
completion awards +1 credit when the new total completed count is an
exact multiple of the configured divisor (default 2) and a separate +1
exactly when the new streak equals the configured streak threshold
(default 10); both bonuses are additive, and the function is pure — it
only computes the amount, which the caller applies via `credit`. -/
def awardForCompletion (newTotalCompletedCount newStreakValue divisor threshold : Nat) :
    Nat :=
  (if newTotalCompletedCount % divisor = 0 then 1 else 0)
    + (if newStreakValue = threshold then 1 else 0)

/-- Modelled from the spec: configured divisor of the completion-count
milestone, default 2 (historically 5). -/
def defaultDivisor : Nat := 2

/-- Modelled from the spec: configured streak threshold of the one-time
streak bonus, default 10. -/
def defaultThreshold : Nat := 10

/-! ## Example states used by witnesses and counterexamples -/

/-- A two-task idle session. -/
def stateAB : SelectorState := ⟨["A", "B"], "", false, 0, none, ""⟩

/-- A one-task idle session. -/
def stateA : SelectorState := ⟨["A"], "", false, 0, none, ""⟩

/-- A two-task session mid-spin. -/
def stateSpinning : SelectorState := ⟨["A", "B"], "", true, 1, none, ""⟩

/-- A two-task session with the winner "A" revealed. -/
def stateRevealedA : SelectorState := ⟨["A", "B"], "", false, 0, some "A", ""⟩

/-- A 35-task session (longer than the 34-tick schedule). -/
def tasks35 : List String := (List.range 35).map (fun k => "T" ++ toString k)

/-- A session whose pending input is whitespace only. -/
def stateWS : SelectorState := ⟨["A"], " \t ", false, 0, none, ""⟩

/-- A session whose pending input carries surrounding whitespace. -/
def stateC : SelectorState := ⟨["A"], "  C  ", false, 0, none, ""⟩

/-! ## Claims -/

/-- C1: for every task list with at least 2 (unique) entries, `spin()`
terminates — the tick schedule reaches the 3500 ms total duration and
lands — in the Revealed phase: `isSpinning` is false and the winner is
non-null and a member of the task list as captured at spin start.
(Uniqueness is not needed: proved for every list of length ≥ 2.) -/
theorem spin_terminates_revealed_member (s : SelectorState) (rand : Nat)
    (h2 : 2 ≤ s.tasks.length) (hr : rand < s.tasks.length) :
    3500 ≤ (spinLoop s.tasks.length 100 initTick).2.elapsed
    ∧ (spin s rand).isSpinning = false
    ∧ ∃ w, (spin s rand).winner = some w ∧ w ∈ s.tasks := by
  have hng : ¬(s.tasks.length < 2) := by omega
  refine ⟨spinLoop_reaches_duration _, ?_, ?_⟩
  · simp [spin, hng]
  · refine ⟨s.tasks.get ⟨rand, hr⟩, ?_, List.get_mem _ _ _⟩
    simp [spin, hng, List.get?_eq_get hr]

theorem spin_terminates_revealed_member_witness :
    2 ≤ stateAB.tasks.length
    ∧ (3500 ≤ (spinLoop stateAB.tasks.length 100 initTick).2.elapsed
        ∧ (spin stateAB 0).isSpinning = false
        ∧ ∃ w, (spin stateAB 0).winner = some w ∧ w ∈ stateAB.tasks) :=
  ⟨by decide, spin_terminates_revealed_member stateAB 0 (by decide) (by decide)⟩

/-- C2: with fewer than 2 tasks, `spin()` only sets the user-visible
validation message; tasks, winner, centered position, phase and the
pending input are untouched. -/
theorem spin_too_few_tasks_noop (s : SelectorState) (rand : Nat)
    (h : s.tasks.length < 2) :
    (spin s rand).tasks = s.tasks
    ∧ (spin s rand).winner = s.winner
    ∧ (spin s rand).currentIndex = s.currentIndex
    ∧ (spin s rand).isSpinning = s.isSpinning
    ∧ (spin s rand).newTask = s.newTask
    ∧ (spin s rand).error = "Add at least 2 tasks to spin!" := by
  simp [spin, h]

theorem spin_too_few_tasks_noop_witness :
    stateA.tasks.length < 2
    ∧ ((spin stateA 0).tasks = stateA.tasks
        ∧ (spin stateA 0).winner = stateA.winner
        ∧ (spin stateA 0).currentIndex = stateA.currentIndex
        ∧ (spin stateA 0).isSpinning = stateA.isSpinning
        ∧ (spin stateA 0).newTask = stateA.newTask
        ∧ (spin stateA 0).error = "Add at least 2 tasks to spin!") :=
  ⟨by decide, spin_too_few_tasks_noop stateA 0 (by decide)⟩

/-- C4: a click on the Spin button while the phase is already Spinning
is rejected — the button is disabled, so no second schedule starts and
the state established by the first call is untouched. -/
theorem spin_click_rejected_while_spinning (s : SelectorState) (rand : Nat)
    (h : s.isSpinning = true) : spinButtonClick s rand = s := by
  simp [spinButtonClick, h]

theorem spin_click_rejected_while_spinning_witness :
    stateSpinning.isSpinning = true ∧ spinButtonClick stateSpinning 0 = stateSpinning :=
  ⟨by decide, spin_click_rejected_while_spinning stateSpinning 0 (by decide)⟩

/-- C6: `awardForCompletion` (spec-modelled, see its doc comment) awards
1 for a divisor multiple alone, 2 when the multiple and the streak
threshold coincide, 1 for the streak threshold alone, and 0 otherwise;
as a Lean function it is pure by construction. -/
theorem awardForCompletion_cases (total streak divisor threshold : Nat) :
    (total % divisor = 0 → streak ≠ threshold →
        awardForCompletion total streak divisor threshold = 1)
    ∧ (total % divisor = 0 → streak = threshold →
        awardForCompletion total streak divisor threshold = 2)
    ∧ (total % divisor ≠ 0 → streak = threshold →
        awardForCompletion total streak divisor threshold = 1)
    ∧ (total % divisor ≠ 0 → streak ≠ threshold →
        awardForCompletion total streak divisor threshold = 0) := by
  unfold awardForCompletion
  refine ⟨?_, ?_, ?_, ?_⟩ <;> intro h1 h2 <;> simp [h1, h2]

theorem awardForCompletion_cases_witness :
    awardForCompletion 10 10 defaultDivisor defaultThreshold = 2 :=
  (awardForCompletion_cases 10 10 defaultDivisor defaultThreshold).2.1
    (by decide) (by decide)

/-- C5: on a duplicate-free task list, `addTask` either rejects the input
(list unchanged) or appends the trimmed name at the end, keeping the
list duplicate-free; `removeTask` at an in-range index deletes exactly
the element at that position without reordering the rest, also keeping
the list duplicate-free. -/
theorem tasklist_nodup_order_preserved (s : SelectorState) (i : Nat)
    (hnd : s.tasks.Nodup) (hi : i < s.tasks.length) :
    ((addTask s).tasks = s.tasks ∨ (addTask s).tasks = s.tasks ++ [trim s.newTask])
    ∧ (addTask s).tasks.Nodup
    ∧ (removeTask s (i : Int)).tasks = s.tasks.take i ++ s.tasks.drop (i + 1)
    ∧ (removeTask s (i : Int)).tasks.Nodup := by
  have hrm : (removeTask s (i : Int)).tasks
      = s.tasks.take i ++ s.tasks.drop (i + 1) := by
    simp [removeTask, removeAt_in_range s.tasks i hi]
  refine ⟨?_, ?_, hrm, ?_⟩
  · unfold addTask
    by_cases h1 : trim s.newTask = ""
    · simp [h1]
    by_cases h2 : trim s.newTask ∈ s.tasks
    · simp [h1, h2]
    · simp [h1, h2]
  · unfold addTask
    by_cases h1 : trim s.newTask = ""
    · simpa [h1] using hnd
    by_cases h2 : trim s.newTask ∈ s.tasks
    · simpa [h1, h2] using hnd
    · simp [h1, h2, List.nodup_append, hnd]
  · rw [hrm]
    exact List.Nodup.sublist (take_append_drop_succ_sublist s.tasks i) hnd

theorem tasklist_nodup_order_preserved_witness :
    (stateAB.tasks.Nodup ∧ 0 < stateAB.tasks.length)
    ∧ (((addTask stateAB).tasks = stateAB.tasks
          ∨ (addTask stateAB).tasks = stateAB.tasks ++ [trim stateAB.newTask])
        ∧ (addTask stateAB).tasks.Nodup
        ∧ (removeTask stateAB ((0 : Nat) : Int)).tasks
            = stateAB.tasks.take 0 ++ stateAB.tasks.drop 1
        ∧ (removeTask stateAB ((0 : Nat) : Int)).tasks.Nodup) :=
  ⟨⟨by decide, by decide⟩,
    tasklist_nodup_order_preserved stateAB 0 (by decide) (by decide)⟩

/-- C9: `removeTask` with an index outside `[0, tasks.length)` — negative
or too large — leaves the task list unchanged (the filter drops nothing)
while still clearing any revealed winner. -/
theorem removeTask_out_of_range_noop (s : SelectorState) (index : Int)
    (h : index < 0 ∨ (s.tasks.length : Int) ≤ index) :
    (removeTask s index).tasks = s.tasks ∧ (removeTask s index).winner = none := by
  refine ⟨?_, rfl⟩
  simp [removeTask, removeAt_out_of_range s.tasks index h]

theorem removeTask_out_of_range_noop_witness :
    ((-1 : Int) < 0 ∨ (stateRevealedA.tasks.length : Int) ≤ (-1 : Int))
    ∧ ((removeTask stateRevealedA (-1)).tasks = stateRevealedA.tasks
        ∧ (removeTask stateRevealedA (-1)).winner = none) :=
  ⟨by decide, removeTask_out_of_range_noop stateRevealedA (-1) (by decide)⟩

/-- C10: `addTask` works on the whitespace-trimmed input: a whitespace-only
input is rejected as empty with only the error message set, the duplicate
check compares the trimmed string with the existing entries, and on
success the trimmed string — not the raw input — is appended. -/
theorem addTask_trims_input (s : SelectorState) :
    (trim s.newTask = "" →
        addTask s = { s with error := "Please enter a task name." })
    ∧ (trim s.newTask ≠ "" → trim s.newTask ∈ s.tasks →
        addTask s = { s with error := "That task already exists." })
    ∧ (trim s.newTask ≠ "" → trim s.newTask ∉ s.tasks →
        (addTask s).tasks = s.tasks ++ [trim s.newTask]
          ∧ (addTask s).newTask = "" ∧ (addTask s).error = ""
          ∧ (addTask s).winner = none) := by
  refine ⟨?_, ?_, ?_⟩ <;> intro h1
  · simp [addTask, h1]
  · intro h2; simp [addTask, h1, h2]
  · intro h2; simp [addTask, h1, h2]

theorem addTask_trims_input_witness :
    (trim stateWS.newTask = ""
      ∧ addTask stateWS = { stateWS with error := "Please enter a task name." })
    ∧ (trim stateC.newTask ≠ ""
      ∧ trim stateC.newTask ∉ stateC.tasks
      ∧ (addTask stateC).tasks = stateC.tasks ++ [trim stateC.newTask]
        ∧ (addTask stateC).newTask = "" ∧ (addTask stateC).error = ""
        ∧ (addTask stateC).winner = none) :=
  ⟨⟨by decide, (addTask_trims_input stateWS).1 (by decide)⟩,
    ⟨by decide, by decide,
      (addTask_trims_input stateC).2.2 (by decide) (by decide)⟩⟩

/-- Closed form of `spinStates` once the length guard has passed. -/
theorem spinStates_eq (s : SelectorState) (rand : Nat)
    (h : ¬(s.tasks.length < 2)) :
    spinStates s rand =
      (SelectorState.mk s.tasks s.newTask true s.currentIndex none ""
        :: (spinTrace s.tasks.length).map
            (fun i => SelectorState.mk s.tasks s.newTask true i none ""))
      ++ [SelectorState.mk s.tasks s.newTask false rand (s.tasks.get? rand) ""] := by
  unfold spinStates
  rw [if_neg h]

/-- Closed form of `spin` once the length guard has passed. -/
theorem spin_eq (s : SelectorState) (rand : Nat)
    (h : ¬(s.tasks.length < 2)) :
    spin s rand
      = SelectorState.mk s.tasks s.newTask false rand (s.tasks.get? rand) "" := by
  unfold spin
  rw [if_neg h]

/-- C3 (counterexample): on the two-task session, every state of the
spin schedule except the landing one carries no winner, and the winner
produced by the landing step depends on the random draw consumed there —
with draw 0 the winner is "A", with draw 1 it is "B" — so the winning
index is not fixed at spin start: the landing step of the schedule
chooses it. -/
theorem winner_not_fixed_at_spin_start_cex :
    (∀ st ∈ (spinStates stateAB 1).dropLast, st.winner = none)
    ∧ (spin stateAB 0).winner = some "A"
    ∧ (spin stateAB 1).winner = some "B" := by decide

/-- C3 (amended): during the spin no winner exists — every schedule
state before the last has `winner = none` — and the final (landing)
step alone sets the winner, to the entry at the index drawn at that
moment. -/
theorem winner_chosen_at_landing (s : SelectorState) (rand : Nat)
    (h2 : 2 ≤ s.tasks.length) (hr : rand < s.tasks.length) :
    (∀ st ∈ (spinStates s rand).dropLast, st.winner = none)
    ∧ (spinStates s rand).getLast? = some (spin s rand)
    ∧ (spin s rand).winner = some (s.tasks.get ⟨rand, hr⟩) := by
  have hng : ¬(s.tasks.length < 2) := by omega
  refine ⟨?_, ?_, ?_⟩
  · intro st hst
    rw [spinStates_eq s rand hng, List.dropLast_concat, List.mem_cons] at hst
    rcases hst with h0 | hm
    · rw [h0]
    · obtain ⟨i, _, rfl⟩ := List.mem_map.mp hm
      rfl
  · rw [spinStates_eq s rand hng, List.getLast?_concat, spin_eq s rand hng]
  · rw [spin_eq s rand hng]
    simp [List.get?_eq_get hr]

theorem winner_chosen_at_landing_witness :
    2 ≤ stateAB.tasks.length
    ∧ ((∀ st ∈ (spinStates stateAB 1).dropLast, st.winner = none)
        ∧ (spinStates stateAB 1).getLast? = some (spin stateAB 1)
        ∧ (spin stateAB 1).winner
            = some (stateAB.tasks.get ⟨1, by decide⟩)) :=
  ⟨by decide, winner_chosen_at_landing stateAB 1 (by decide) (by decide)⟩

/-- C7 (counterexample): on a 35-task list (one more task than the 34
ticks of the schedule) a spin landing on index 1 never centers index 0:
the reel does not pass through every index, so the "at least one full
loop regardless of list size" claim fails. -/
theorem spin_not_full_loop_cex :
    2 ≤ tasks35.length ∧ 1 < tasks35.length ∧ 0 < tasks35.length
    ∧ 0 ∉ spinCenters tasks35 1 := by decide

/-- C7 (amended): the schedule advances the center exactly 34 times, one
slot per tick, so for every task list with between 2 and 34 entries the
spin passes through every index at least once before stopping; longer
lists leave some indices unvisited (see the counterexample). -/
theorem spin_visits_all_when_le_34 (tasks : List String) (rand i : Nat)
    (h2 : 2 ≤ tasks.length) (h34 : tasks.length ≤ 34) (hi : i < tasks.length) :
    i ∈ spinCenters tasks rand := by
  unfold spinCenters
  apply List.mem_append_left
  rw [spinTrace_eq]
  refine List.mem_map.mpr ⟨(i + tasks.length - 1) % tasks.length, ?_, ?_⟩
  · exact List.mem_range.mpr (lt_of_lt_of_le (Nat.mod_lt _ (by omega)) h34)
  · rw [Nat.mod_add_mod,
      show i + tasks.length - 1 + 1 = i + tasks.length from by omega,
      Nat.add_mod_right]
    exact Nat.mod_eq_of_lt hi

theorem spin_visits_all_when_le_34_witness :
    (2 ≤ stateAB.tasks.length ∧ stateAB.tasks.length ≤ 34
      ∧ 1 < stateAB.tasks.length)
    ∧ 1 ∈ spinCenters stateAB.tasks 0 :=
  ⟨⟨by decide, by decide, by decide⟩,
    spin_visits_all_when_le_34 stateAB.tasks 0 1 (by decide) (by decide) (by decide)⟩

/-- C8 (counterexample): with winner "A" revealed, removing index 1 —
the entry "B", not the winner — does not preserve the captured winner:
`removeTask` unconditionally clears it. -/
theorem removeTask_nonwinner_clears_winner_cex :
    stateRevealedA.winner = some "A"
    ∧ stateRevealedA.tasks.get? 1 = some "B"
    ∧ (removeTask stateRevealedA 1).tasks = ["A"]
    ∧ ¬((removeTask stateRevealedA 1).winner = some "A") := by decide

/-- C8 (amended): removing any task — winner or not, in range or not —
clears the revealed winner: `removeTask` always resets `winner` to
null. -/
theorem removeTask_always_clears_winner (s : SelectorState) (index : Int) :
    (removeTask s index).winner = none := rfl

end TaskRoulette
